import Mathlib

/-!
Shallow embedding of the GenomeSim core data model
(`genomesim/core/types.py`, `genomesim/core/interfaces.py`).

Python floats are modelled as rationals (exact values) except in the
aggregation helper, where the geometric mean needs real exponents and the
scores are modelled as real numbers.  Python dicts are modelled as
association lists in insertion order with unique keys; raising `ValueError`
is modelled with `Except String`.
-/

namespace GenomeSim

/-- Python `dict[str, str]`-style map: association list in insertion order. -/
abbrev Dict := List (String × String)

/-- Python dict merge `\x7b**a, **b\x7d`: keys of `a` in order (values taken
from `b` on collision), then the keys of `b` not present in `a`, in order. -/
def dictMerge (a b : Dict) : Dict :=
  a.map (fun kv =>
    match List.lookup kv.1 b with
    | some v => (kv.1, v)
    | none => kv) ++
  b.filter (fun kv => (List.lookup kv.1 a).isNone)

/-- Truthiness of `Optional[str]` in Python: `None` and `""` are falsy. -/
def truthy : Option String → Bool
  | none => false
  | some s => s ≠ ""

/-- `Confidence` dataclass (`types.py`). -/
structure Confidence where
  score : ℚ
  method : String
  sources : List String
  supporting_evidence : Dict
deriving DecidableEq

/-- The construction invariants checked by `Confidence.__post_init__`. -/
def Confidence.Valid (c : Confidence) : Prop :=
  0 ≤ c.score ∧ c.score ≤ 1 ∧ c.sources ≠ []

instance (c : Confidence) : Decidable c.Valid := by
  unfold Confidence.Valid; infer_instance

/-- `Confidence(...)` construction including `__post_init__` validation. -/
def mkConfidence (score : ℚ) (method : String) (sources : List String)
    (supporting_evidence : Dict) : Except String Confidence :=
  if ¬ (0 ≤ score ∧ score ≤ 1) then
    .error ("Confidence score must be between 0.0 and 1.0, got " ++ toString score)
  else if sources = [] then
    .error "Confidence must have at least one source"
  else
    .ok ⟨score, method, sources, supporting_evidence⟩

/-- `Confidence.combine_with` (`types.py`).  The final `Confidence(...)`
call re-runs construction validation, as in the source. -/
def Confidence.combine_with (self other : Confidence) (weight_self : ℚ) :
    Except String Confidence :=
  if ¬ (0 ≤ weight_self ∧ weight_self ≤ 1) then
    .error "weight_self must be between 0.0 and 1.0"
  else
    let weight_other := 1 - weight_self
    let combined_score := self.score * weight_self + other.score * weight_other
    let combined_sources := (self.sources ++ other.sources).dedup
    let combined_evidence := dictMerge self.supporting_evidence other.supporting_evidence
    mkConfidence combined_score
      ("combined(" ++ self.method ++ ", " ++ other.method ++ ")")
      combined_sources combined_evidence

/-- `Provenance` dataclass (`types.py`).  Timestamp validation is done by
`mkProvenance` below. -/
structure Provenance where
  analyzer : String
  version : String
  parameters : Dict
  timestamp : String
  dependencies : List String := []
  references : List String := []
deriving DecidableEq

/-- `GenomicFeature` dataclass (`types.py`). -/
structure GenomicFeature where
  start : ℤ
  end_ : ℤ
  strand : String
  feature_type : String
  confidence : Confidence
  attributes : Dict
  provenance : Provenance
  sequence_id : Option String := none
deriving DecidableEq

/-- The construction invariants checked by `GenomicFeature.__post_init__`. -/
def GenomicFeature.Valid (f : GenomicFeature) : Prop :=
  0 ≤ f.start ∧ f.start < f.end_ ∧ (f.strand = "+" ∨ f.strand = "-")

instance (f : GenomicFeature) : Decidable f.Valid := by
  unfold GenomicFeature.Valid; infer_instance

/-- `GenomicFeature(...)` construction including `__post_init__` validation. -/
def mkGenomicFeature (start end_ : ℤ) (strand feature_type : String)
    (confidence : Confidence) (attributes : Dict) (provenance : Provenance)
    (sequence_id : Option String) : Except String GenomicFeature :=
  if start < 0 then
    .error ("Start position must be non-negative, got " ++ toString start)
  else if end_ ≤ start then
    .error ("End position must be greater than start, got start=" ++
      toString start ++ ", end=" ++ toString end_)
  else if ¬ (strand = "+" ∨ strand = "-") then
    .error ("Strand must be + or -, got " ++ strand)
  else
    .ok ⟨start, end_, strand, feature_type, confidence, attributes, provenance, sequence_id⟩

/-- `GenomicFeature.overlaps` (`types.py`). -/
def GenomicFeature.overlaps (self other : GenomicFeature) : Bool :=
  if truthy self.sequence_id ∧ truthy other.sequence_id ∧
      self.sequence_id ≠ other.sequence_id then
    false
  else
    decide (¬ (self.end_ ≤ other.start ∨ other.end_ ≤ self.start))

/-- `GenomicFeature.distance_to` (`types.py`). -/
def GenomicFeature.distance_to (self other : GenomicFeature) : ℤ :=
  if truthy self.sequence_id ∧ truthy other.sequence_id ∧
      self.sequence_id ≠ other.sequence_id then
    -1
  else if self.overlaps other then
    0
  else if self.end_ ≤ other.start then
    other.start - self.end_
  else
    self.start - other.end_

/-- Round a rational to the nearest integer, ties to even (the rounding
used by float formatting). -/
def roundHalfEven (q : ℚ) : ℤ :=
  let f := ⌊q⌋
  if q - f < 1 / 2 then f
  else if (1 : ℚ) / 2 < q - f then f + 1
  else if f % 2 = 0 then f else f + 1

/-- Zero-pad a fractional part to width 3. -/
def pad3 (n : ℕ) : String :=
  if n < 10 then "00" ++ toString n
  else if n < 100 then "0" ++ toString n
  else toString n

/-- Python `f"..."` formatting of a number with `:.3f`: three digits after
the decimal point. -/
def format3 (q : ℚ) : String :=
  let n := roundHalfEven (q * 1000)
  if n < 0 then
    "-" ++ toString ((-n) / 1000) ++ "." ++ pad3 (((-n) % 1000).toNat)
  else
    toString (n / 1000) ++ "." ++ pad3 ((n % 1000).toNat)

/-- `GenomicFeature.to_gff3` (`types.py`). -/
def GenomicFeature.to_gff3 (f : GenomicFeature) : String :=
  let seqid := match f.sequence_id with
    | some s => if s = "" then "." else s
    | none => "."
  let source := f.provenance.analyzer
  let ftype := f.feature_type
  let start1 := f.start + 1
  let endv := f.end_
  let score := format3 f.confidence.score
  let strand := f.strand
  let phase := "."
  let attr_parts : List String := []
  let attr_parts := match List.lookup "id" f.attributes with
    | some v => attr_parts ++ ["ID=" ++ v]
    | none => attr_parts
  let attr_parts := match List.lookup "name" f.attributes with
    | some v => attr_parts ++ ["Name=" ++ v]
    | none => attr_parts
  let attr_parts := attr_parts ++ ["confidence=" ++ format3 f.confidence.score]
  let attr_parts := attr_parts ++ ["confidence_method=" ++ f.confidence.method]
  let attr_parts := attr_parts ++
    (f.attributes.filter (fun kv => ¬ (kv.1 = "id" ∨ kv.1 = "name"))).map
      (fun kv => kv.1 ++ "=" ++ kv.2)
  let attributes := String.intercalate ";" attr_parts
  seqid ++ "\t" ++ source ++ "\t" ++ ftype ++ "\t" ++ toString start1 ++ "\t" ++
    toString endv ++ "\t" ++ score ++ "\t" ++ strand ++ "\t" ++ phase ++ "\t" ++ attributes

/-! ### Timestamp validation (`Provenance.__post_init__`)

The source validates `timestamp` with
`datetime.fromisoformat(self.timestamp.replace("Z", "+00:00"))`.
The functions below embed CPython's `datetime.fromisoformat` parser
(the `isoformat`-inverse grammar: a `YYYY-MM-DD` date, optionally followed
by one arbitrary separator character and a `HH[:MM[:SS[.fff|.ffffff]]]`
time with an optional `±HH:MM[:SS[.ffffff]]` offset), together with the
range checks performed by the `datetime` and `timezone` constructors. -/

/-- Decimal value of a list of digit characters. -/
def digitsToNat (cs : List Char) : ℕ :=
  cs.foldl (fun a c => a * 10 + (c.toNat - Char.toNat '0')) 0

/-- Read exactly `n` decimal digits from the front of `cs`. -/
def parseDigitsN (cs : List Char) (n : ℕ) : Option (ℕ × List Char) :=
  let pre := cs.take n
  if pre.length = n ∧ pre.all Char.isDigit then
    some (digitsToNat pre, cs.drop n)
  else
    none

/-- Parse a `YYYY-MM-DD` date string (exactly the first ten characters of
the input to `fromisoformat`). -/
def parseIsoDate (cs : List Char) : Option (ℕ × ℕ × ℕ) :=
  match parseDigitsN cs 4 with
  | none => none
  | some (y, r1) =>
    match r1 with
    | '-' :: r2 =>
      match parseDigitsN r2 2 with
      | none => none
      | some (m, r3) =>
        match r3 with
        | '-' :: r4 =>
          match parseDigitsN r4 2 with
          | none => none
          | some (d, r5) => if r5 = [] then some (y, m, d) else none
        | _ => none
    | _ => none

/-- Gregorian leap year, as validated by `datetime`. -/
def isLeap (y : ℕ) : Bool :=
  y % 4 = 0 ∧ (y % 100 ≠ 0 ∨ y % 400 = 0)

/-- Days in a month, as validated by `datetime`. -/
def daysInMonth (y m : ℕ) : ℕ :=
  if m = 2 then (if isLeap y then 29 else 28)
  else if m = 4 ∨ m = 6 ∨ m = 9 ∨ m = 11 then 30
  else 31

/-- The range checks of the `datetime` date constructor. -/
def validDate (y m d : ℕ) : Bool :=
  1 ≤ y ∧ y ≤ 9999 ∧ 1 ≤ m ∧ m ≤ 12 ∧ 1 ≤ d ∧ d ≤ daysInMonth y m

/-- CPython `_parse_hh_mm_ss_ff`: `HH[:MM[:SS[.fff|.ffffff]]]`, returning
hours, minutes, seconds and microseconds. -/
def parseHMSF (cs : List Char) : Option (ℕ × ℕ × ℕ × ℕ) :=
  match parseDigitsN cs 2 with
  | none => none
  | some (h, r1) =>
    match r1 with
    | [] => some (h, 0, 0, 0)
    | ':' :: r2 =>
      match parseDigitsN r2 2 with
      | none => none
      | some (m, r3) =>
        match r3 with
        | [] => some (h, m, 0, 0)
        | ':' :: r4 =>
          match parseDigitsN r4 2 with
          | none => none
          | some (s, r5) =>
            match r5 with
            | [] => some (h, m, s, 0)
            | '.' :: r6 =>
              if r6.length = 3 ∧ r6.all Char.isDigit then
                some (h, m, s, digitsToNat r6 * 1000)
              else if r6.length = 6 ∧ r6.all Char.isDigit then
                some (h, m, s, digitsToNat r6)
              else none
            | _ => none
        | _ => none
    | _ => none

/-- Index of the first `+` or `-` in the list, if any (the separator the
time parser uses to split off a UTC-offset suffix). -/
def findSignIdx : List Char → Option ℕ
  | [] => none
  | c :: cs =>
    if c = '+' ∨ c = '-' then some 0
    else (findSignIdx cs).map (· + 1)

/-- A UTC offset accepted by the `timezone` constructor: strictly less
than 24 hours in magnitude. -/
def tzOffsetOK (h m s us : ℕ) : Bool :=
  ((h * 60 + m) * 60 + s) * 1000000 + us < 24 * 3600 * 1000000

/-- CPython `_parse_isoformat_time` plus the `datetime`/`timezone` range
checks: a `HH[:MM[:SS[.fff|.ffffff]]]` clock time with hour ≤ 23,
minute ≤ 59 and second ≤ 59, optionally followed by a sign and an offset
string of length 5, 8 or 15 in the same clock format. -/
def parseIsoTime (cs : List Char) : Bool :=
  match findSignIdx cs with
  | none =>
    match parseHMSF cs with
    | some (h, m, s, _) => h ≤ 23 ∧ m ≤ 59 ∧ s ≤ 59
    | none => false
  | some i =>
    let timestr := cs.take i
    let tzstr := cs.drop (i + 1)
    (match parseHMSF timestr with
     | some (h, m, s, _) => (h ≤ 23 ∧ m ≤ 59 ∧ s ≤ 59 : Bool)
     | none => false) &&
    (tzstr.length = 5 ∨ tzstr.length = 8 ∨ tzstr.length = 15 : Bool) &&
    (match parseHMSF tzstr with
     | some (th, tm, ts, tus) => tzOffsetOK th tm ts tus
     | none => false)

/-- `datetime.fromisoformat` as a recognizer: the first ten characters
must be a valid calendar date; a lone eleventh character (the separator)
is ignored; anything after it must be a valid clock time with an optional
UTC offset. -/
def fromisoformatOK (str : String) : Bool :=
  let cs := str.data
  if cs.length < 10 then false
  else
    match parseIsoDate (cs.take 10) with
    | none => false
    | some (y, m, d) =>
      validDate y m d && (cs.drop 11 = [] || parseIsoTime (cs.drop 11))

/-- Python `str.replace("Z", "+00:00")`: every occurrence of the
single-character pattern is expanded. -/
def pyReplaceZ (s : String) : String :=
  ⟨s.data.flatMap (fun c => if c = 'Z' then "+00:00".data else [c])⟩

/-- `Provenance(...)` construction including the `__post_init__`
timestamp validation. -/
def mkProvenance (analyzer version : String) (parameters : Dict)
    (timestamp : String) (dependencies references : List String) :
    Except String Provenance :=
  if fromisoformatOK (pyReplaceZ timestamp) then
    .ok ⟨analyzer, version, parameters, timestamp, dependencies, references⟩
  else
    .error ("Timestamp must be in ISO 8601 format, got: " ++ timestamp)

/-- Is an `Except` result a success? -/
def exceptOk : Except String α → Bool
  | .ok _ => true
  | .error _ => false

/-! ### Confidence aggregation (`ScaleBridge.aggregate_confidence`,
`interfaces.py`).  Scores are modelled as real numbers because the
geometric mean uses a real exponent. -/

/-- Python `min` over a non-empty list (`0` on the empty list, which the
caller never passes). -/
def listMin : List ℝ → ℝ
  | [] => 0
  | [x] => x
  | x :: y :: xs => min x (listMin (y :: xs))

open Classical in
/-- `ScaleBridge.aggregate_confidence` (`interfaces.py`). -/
noncomputable def aggregate_confidence (confidences : List ℝ) (method : String)
    (weights : Option (List ℝ)) : Except String ℝ :=
  if confidences = [] then .ok 0
  else if method = "weighted_average" then
    let ws := match weights with
      | none => List.replicate confidences.length (1 : ℝ)
      | some w => w
    if ws.length ≠ confidences.length then
      .error ("Weights length (" ++ toString ws.length ++
        ") must match confidences length (" ++ toString confidences.length ++ ")")
    else
      let total_weight := ws.sum
      if total_weight = 0 then .ok 0
      else .ok ((List.zipWith (· * ·) confidences ws).sum / total_weight)
  else if method = "minimum" then
    .ok (listMin confidences)
  else if method = "geometric_mean" then
    .ok ((confidences.foldl (· * ·) 1) ^ ((1 : ℝ) / (confidences.length : ℝ)))
  else
    .error ("Unknown aggregation method: " ++ method ++
      ". Valid methods: weighted_average, minimum, geometric_mean")

/-! ### Shared sample values for witnesses -/

/-- A small valid `Confidence` used in concrete witnesses. -/
def sampleConfidence : Confidence := ⟨1 / 2, "test", ["src"], []⟩

/-- A small `Provenance` used in concrete witnesses. -/
def sampleProvenance : Provenance :=
  ⟨"Analyzer", "0.1.0", [], "2025-10-31T12:00:00Z", [], []⟩

/-- A forward-strand gene feature with the given coordinates and
sequence id, used in concrete witnesses. -/
def sampleFeature (start end_ : ℤ) (sid : Option String) : GenomicFeature :=
  ⟨start, end_, "+", "gene", sampleConfidence, [], sampleProvenance, sid⟩

/-- The condition of the different-sequence early exit in `overlaps` and
`distance_to`: both sequence ids truthy and distinct. -/
def diffSeq (a b : GenomicFeature) : Prop :=
  truthy a.sequence_id ∧ truthy b.sequence_id ∧ a.sequence_id ≠ b.sequence_id

instance (a b : GenomicFeature) : Decidable (diffSeq a b) := by
  unfold diffSeq; infer_instance

theorem diffSeq_symm_iff (a b : GenomicFeature) : diffSeq a b ↔ diffSeq b a := by
  unfold diffSeq
  exact ⟨fun h => ⟨h.2.1, h.1, h.2.2.symm⟩, fun h => ⟨h.2.1, h.1, h.2.2.symm⟩⟩

theorem overlaps_of_diffSeq {a b : GenomicFeature} (h : diffSeq a b) :
    a.overlaps b = false := by
  unfold diffSeq at h
  unfold GenomicFeature.overlaps
  rw [if_pos h]

theorem overlaps_of_not_diffSeq {a b : GenomicFeature} (h : ¬ diffSeq a b) :
    a.overlaps b = decide (¬ (a.end_ ≤ b.start ∨ b.end_ ≤ a.start)) := by
  unfold diffSeq at h
  unfold GenomicFeature.overlaps
  rw [if_neg h]

theorem overlaps_symm (a b : GenomicFeature) : a.overlaps b = b.overlaps a := by
  by_cases h : diffSeq a b
  · rw [overlaps_of_diffSeq h, overlaps_of_diffSeq ((diffSeq_symm_iff a b).mp h)]
  · rw [overlaps_of_not_diffSeq h,
      overlaps_of_not_diffSeq (fun hh => h ((diffSeq_symm_iff a b).mpr hh))]
    rw [decide_eq_decide]
    tauto

theorem distance_of_diffSeq {a b : GenomicFeature} (h : diffSeq a b) :
    a.distance_to b = -1 := by
  unfold diffSeq at h
  unfold GenomicFeature.distance_to
  rw [if_pos h]

theorem distance_of_not_diffSeq {a b : GenomicFeature} (h : ¬ diffSeq a b) :
    a.distance_to b =
      if a.overlaps b then 0
      else if a.end_ ≤ b.start then b.start - a.end_
      else a.start - b.end_ := by
  unfold diffSeq at h
  unfold GenomicFeature.distance_to
  rw [if_neg h]

theorem coords_disjoint_of_overlaps_false {a b : GenomicFeature}
    (h : ¬ diffSeq a b) (hov : a.overlaps b = false) :
    a.end_ ≤ b.start ∨ b.end_ ≤ a.start := by
  have heq := overlaps_of_not_diffSeq h
  rw [hov] at heq
  exact not_not.mp (of_decide_eq_false heq.symm)

theorem distance_nonneg_of_not_diffSeq {a b : GenomicFeature} (h : ¬ diffSeq a b) :
    0 ≤ a.distance_to b := by
  rw [distance_of_not_diffSeq h]
  cases hov : a.overlaps b
  · have hor := coords_disjoint_of_overlaps_false h hov
    simp only [Bool.false_eq_true, if_false]
    rcases hor with h5 | h5 <;> split_ifs <;> omega
  · simp

/-- C6: `GenomicFeature` construction succeeds exactly when `start ≥ 0`,
`end > start` and the strand is `+` or `-`; otherwise it raises a
validation error. -/
theorem C6_feature_construction_iff (start end_ : ℤ) (strand feature_type : String)
    (c : Confidence) (attrs : Dict) (p : Provenance) (sid : Option String) :
    exceptOk (mkGenomicFeature start end_ strand feature_type c attrs p sid) = true ↔
      (0 ≤ start ∧ start < end_ ∧ (strand = "+" ∨ strand = "-")) := by
  unfold mkGenomicFeature
  split_ifs with h1 h2 h3
  · simp only [exceptOk, Bool.false_eq_true, false_iff]
    rintro ⟨ha, -⟩; omega
  · simp only [exceptOk, Bool.false_eq_true, false_iff]
    rintro ⟨-, hb, -⟩; omega
  · simp only [exceptOk, true_iff]
    refine ⟨by omega, by omega, ?_⟩; tauto
  · simp only [exceptOk, Bool.false_eq_true, false_iff]
    rintro ⟨-, -, hc⟩; tauto

/-- C7: `Confidence` construction succeeds exactly for a score in
[0.0, 1.0] together with a non-empty sources list, and raises a
validation error for out-of-range scores or an empty sources list. -/
theorem C7_confidence_construction_iff (score : ℚ) (method : String)
    (sources : List String) (ev : Dict) :
    exceptOk (mkConfidence score method sources ev) = true ↔
      (0 ≤ score ∧ score ≤ 1 ∧ sources ≠ []) := by
  unfold mkConfidence
  split_ifs with h1 h2 <;>
    simp only [exceptOk, Bool.false_eq_true, false_iff, true_iff] <;> tauto

/-- C4: features on different, both-specified sequence ids never overlap;
otherwise overlap holds iff the half-open intervals intersect; and
`overlaps` is symmetric. -/
theorem C4_overlaps_spec (a b : GenomicFeature) :
    (diffSeq a b → a.overlaps b = false) ∧
    (¬ diffSeq a b →
      (a.overlaps b = true ↔ ¬ (a.end_ ≤ b.start ∨ b.end_ ≤ a.start))) ∧
    a.overlaps b = b.overlaps a := by
  refine ⟨fun h => overlaps_of_diffSeq h, fun h => ?_, overlaps_symm a b⟩
  rw [overlaps_of_not_diffSeq h, decide_eq_true_iff]

/-- Witness for C4 at concrete features: `[100,200)` and `[150,250)` on
`chr1` overlap; identical coordinates on `chr1` and `chr2` do not. -/
theorem C4_overlaps_spec_witness :
    (sampleFeature 100 200 (some "chr1")).overlaps (sampleFeature 150 250 (some "chr1")) = true ∧
    (sampleFeature 100 200 (some "chr1")).overlaps (sampleFeature 100 200 (some "chr2")) = false := by
  constructor
  · exact ((C4_overlaps_spec (sampleFeature 100 200 (some "chr1"))
      (sampleFeature 150 250 (some "chr1"))).2.1 (by decide)).mpr (by decide)
  · exact (C4_overlaps_spec (sampleFeature 100 200 (some "chr1"))
      (sampleFeature 100 200 (some "chr2"))).1 (by decide)

/-- C5: `distance_to` returns −1 when both sequence ids are specified and
differ, 0 when the features overlap, and otherwise the non-negative gap
between the nearer edges; it is symmetric for non-overlapping features on
the same sequence. -/
theorem C5_distance_spec (a b : GenomicFeature) (ha : a.Valid) (hb : b.Valid) :
    (diffSeq a b → a.distance_to b = -1) ∧
    (a.overlaps b = true → a.distance_to b = 0) ∧
    (¬ diffSeq a b → a.overlaps b = false →
      a.distance_to b =
        (if a.end_ ≤ b.start then b.start - a.end_ else a.start - b.end_) ∧
      0 ≤ a.distance_to b) ∧
    (¬ diffSeq a b → a.overlaps b = false →
      a.distance_to b = b.distance_to a) := by
  obtain ⟨-, ha1, -⟩ := ha
  obtain ⟨-, hb1, -⟩ := hb
  refine ⟨fun h => distance_of_diffSeq h, fun hov => ?_, fun hnd hov => ?_, fun hnd hov => ?_⟩
  · have hnd : ¬ diffSeq a b := by
      intro hd
      rw [overlaps_of_diffSeq hd] at hov
      cases hov
    rw [distance_of_not_diffSeq hnd, if_pos hov]
  · constructor
    · rw [distance_of_not_diffSeq hnd, hov]
      simp
    · exact distance_nonneg_of_not_diffSeq hnd
  · have hnd2 : ¬ diffSeq b a := fun hh => hnd ((diffSeq_symm_iff a b).mpr hh)
    have hov2 : b.overlaps a = false := by rw [← overlaps_symm a b]; exact hov
    have hor := coords_disjoint_of_overlaps_false hnd hov
    rw [distance_of_not_diffSeq hnd, distance_of_not_diffSeq hnd2, hov, hov2]
    simp only [Bool.false_eq_true, if_false]
    rcases hor with h5 | h5 <;> split_ifs <;> omega

/-- Witness for C5: `[100,200)` to `[300,400)` on the same sequence is 100
in both directions, and identical coordinates on different sequences give
the −1 sentinel. -/
theorem C5_distance_spec_witness :
    (sampleFeature 100 200 (some "chr1")).distance_to (sampleFeature 300 400 (some "chr1")) = 100 ∧
    (sampleFeature 100 200 (some "chr1")).distance_to (sampleFeature 300 400 (some "chr1")) =
      (sampleFeature 300 400 (some "chr1")).distance_to (sampleFeature 100 200 (some "chr1")) ∧
    (sampleFeature 100 200 (some "chr1")).distance_to (sampleFeature 100 200 (some "chr2")) = -1 := by
  refine ⟨?_, ?_, ?_⟩
  · have h := (C5_distance_spec (sampleFeature 100 200 (some "chr1"))
      (sampleFeature 300 400 (some "chr1")) (by decide) (by decide)).2.2.1
      (by decide) (by decide)
    rw [h.1]; decide
  · exact (C5_distance_spec (sampleFeature 100 200 (some "chr1"))
      (sampleFeature 300 400 (some "chr1")) (by decide) (by decide)).2.2.2
      (by decide) (by decide)
  · exact (C5_distance_spec (sampleFeature 100 200 (some "chr1"))
      (sampleFeature 100 200 (some "chr2")) (by decide) (by decide)).1 (by decide)

/-- C9: an empty-string `sequence_id` behaves like an absent one in
`overlaps` and `distance_to`: the different-sequence early exit cannot
fire, so overlap is decided by coordinates alone and the distance is a
real non-negative value, never the −1 sentinel. -/
theorem C9_empty_string_seqid (a b : GenomicFeature) (h : a.sequence_id = some "") :
    a.overlaps b = decide (¬ (a.end_ ≤ b.start ∨ b.end_ ≤ a.start)) ∧
    b.overlaps a = decide (¬ (b.end_ ≤ a.start ∨ a.end_ ≤ b.start)) ∧
    a.distance_to b ≠ -1 ∧ 0 ≤ a.distance_to b ∧
    b.distance_to a ≠ -1 ∧ 0 ≤ b.distance_to a := by
  have hta : truthy a.sequence_id = false := by rw [h]; rfl
  have hnd : ¬ diffSeq a b := by
    intro hd
    unfold diffSeq at hd
    rw [hta] at hd
    simp at hd
  have hnd2 : ¬ diffSeq b a := by
    intro hd
    unfold diffSeq at hd
    rw [hta] at hd
    simp at hd
  have h1 := distance_nonneg_of_not_diffSeq hnd
  have h2 := distance_nonneg_of_not_diffSeq hnd2
  exact ⟨overlaps_of_not_diffSeq hnd, overlaps_of_not_diffSeq hnd2,
    by omega, h1, by omega, h2⟩

/-- Witness for C9: a feature with `sequence_id = ""` overlaps a
coordinate-overlapping feature on `chr1`, and their distance is 0, not the
−1 sentinel. -/
theorem C9_empty_string_seqid_witness :
    (sampleFeature 100 200 (some "")).overlaps (sampleFeature 150 250 (some "chr1")) = true ∧
    0 ≤ (sampleFeature 100 200 (some "")).distance_to (sampleFeature 150 250 (some "chr1")) := by
  constructor
  · rw [(C9_empty_string_seqid (sampleFeature 100 200 (some ""))
      (sampleFeature 150 250 (some "chr1")) rfl).1]
    decide
  · exact (C9_empty_string_seqid (sampleFeature 100 200 (some ""))
      (sampleFeature 150 250 (some "chr1")) rfl).2.2.2.1

/-! ### Lemmas about the dict model and `combine_with` -/

theorem lookup_append (k : String) (l1 l2 : Dict) :
    List.lookup k (l1 ++ l2) =
      match List.lookup k l1 with
      | some v => some v
      | none => List.lookup k l2 := by
  induction l1 with
  | nil => rfl
  | cons hd tl ih =>
    cases hk : (k == hd.1) <;> simp [List.lookup, hk, ih]

theorem lookup_map_override (a b : Dict) (k : String) :
    List.lookup k (a.map (fun kv =>
      match List.lookup kv.1 b with
      | some v => (kv.1, v)
      | none => kv)) =
    match List.lookup k a with
    | some v =>
      match List.lookup k b with
      | some w => some w
      | none => some v
    | none => none := by
  induction a with
  | nil => rfl
  | cons hd tl ih =>
    obtain ⟨hk, hv⟩ := hd
    cases hkk : (k == hk)
    · cases hb : List.lookup hk b <;>
        simp [List.lookup, hkk, hb, ih]
    · have hkeq : k = hk := by
        have := eq_of_beq hkk
        exact this
      subst hkeq
      cases hb : List.lookup k b <;>
        simp [List.lookup, hb]

theorem lookup_filter_keep (a b : Dict) (k : String) (h : List.lookup k a = none) :
    List.lookup k (b.filter (fun kv => (List.lookup kv.1 a).isNone)) =
      List.lookup k b := by
  induction b with
  | nil => rfl
  | cons hd tl ih =>
    obtain ⟨hk, hv⟩ := hd
    by_cases hkk : (k == hk) = true
    · have hkeq : k = hk := eq_of_beq hkk
      subst hkeq
      simp [List.filter, h, List.lookup, hkk]
    · have hkk2 : (k == hk) = false := by
        cases hx : (k == hk)
        · rfl
        · exact absurd hx hkk
      cases hkeep : (List.lookup hk a).isNone <;>
        simp [List.filter, hkeep, List.lookup, hkk2, ih]

theorem dictMerge_lookup (a b : Dict) (k : String) :
    List.lookup k (dictMerge a b) =
      match List.lookup k b with
      | some v => some v
      | none => List.lookup k a := by
  unfold dictMerge
  rw [lookup_append, lookup_map_override]
  cases ha : List.lookup k a
  · rw [lookup_filter_keep a b k ha]
    cases hb : List.lookup k b <;> rfl
  · cases hb : List.lookup k b <;> rfl

theorem combine_with_ok {c1 c2 : Confidence} {w : ℚ}
    (h1 : c1.Valid) (h2 : c2.Valid) (hw0 : 0 ≤ w) (hw1 : w ≤ 1) :
    c1.combine_with c2 w =
      .ok ⟨c1.score * w + c2.score * (1 - w),
           "combined(" ++ c1.method ++ ", " ++ c2.method ++ ")",
           (c1.sources ++ c2.sources).dedup,
           dictMerge c1.supporting_evidence c2.supporting_evidence⟩ := by
  obtain ⟨ha0, ha1, ha2⟩ := h1
  obtain ⟨hb0, hb1, hb2⟩ := h2
  have hs0 : 0 ≤ c1.score * w + c2.score * (1 - w) := by
    have := mul_nonneg ha0 hw0
    have := mul_nonneg hb0 (by linarith : (0:ℚ) ≤ 1 - w)
    linarith
  have hs1 : c1.score * w + c2.score * (1 - w) ≤ 1 := by
    have h3 : c1.score * w ≤ 1 * w := mul_le_mul_of_nonneg_right ha1 hw0
    have h4 : c2.score * (1 - w) ≤ 1 * (1 - w) :=
      mul_le_mul_of_nonneg_right hb1 (by linarith)
    linarith
  unfold Confidence.combine_with
  rw [if_neg (not_not_intro ⟨hw0, hw1⟩)]
  dsimp only
  unfold mkConfidence
  rw [if_neg (not_not_intro ⟨hs0, hs1⟩),
    if_neg (by simp [List.dedup_eq_nil, ha2])]

/-- C3: `combine_with` rejects a weight outside [0,1]; otherwise it
returns a new Confidence whose score is the convex combination of the two
scores, whose sources are the duplicate-free union of both source lists,
and whose evidence map is the key-wise union with `other` winning on
collisions. -/
theorem C3_combine_with_spec (c1 c2 : Confidence) (w : ℚ)
    (h1 : c1.Valid) (h2 : c2.Valid) :
    (¬ (0 ≤ w ∧ w ≤ 1) →
      c1.combine_with c2 w = .error "weight_self must be between 0.0 and 1.0") ∧
    (0 ≤ w → w ≤ 1 → ∃ c : Confidence,
      c1.combine_with c2 w = .ok c ∧
      c.score = c1.score * w + c2.score * (1 - w) ∧
      (∀ s : String, s ∈ c.sources ↔ s ∈ c1.sources ∨ s ∈ c2.sources) ∧
      c.sources.Nodup ∧
      (∀ k : String, List.lookup k c.supporting_evidence =
        match List.lookup k c2.supporting_evidence with
        | some v => some v
        | none => List.lookup k c1.supporting_evidence)) := by
  constructor
  · intro hw
    unfold Confidence.combine_with
    rw [if_pos hw]
  · intro hw0 hw1
    refine ⟨_, combine_with_ok h1 h2 hw0 hw1, rfl, ?_, ?_, ?_⟩
    · intro s
      simp [List.mem_dedup, List.mem_append]
    · exact List.nodup_dedup _
    · intro k
      exact dictMerge_lookup c1.supporting_evidence c2.supporting_evidence k

/-- A second sample `Confidence`, used in `combine_with` witnesses. -/
def sampleConfidence2 : Confidence := ⟨3 / 4, "m2", ["src", "b"], [("k", "v2")]⟩

theorem sampleConfidence_valid : sampleConfidence.Valid := by
  unfold Confidence.Valid sampleConfidence
  norm_num

theorem sampleConfidence2_valid : sampleConfidence2.Valid := by
  unfold Confidence.Valid sampleConfidence2
  refine ⟨by norm_num, by norm_num, by simp⟩

/-- Witness for C3 at concrete inputs: out-of-range weight errors, and
weight 1/4 gives the convex combination of the scores. -/
theorem C3_combine_with_spec_witness :
    sampleConfidence.combine_with sampleConfidence2 2 =
      .error "weight_self must be between 0.0 and 1.0" ∧
    (∃ c : Confidence, sampleConfidence.combine_with sampleConfidence2 (1 / 4) = .ok c ∧
      c.score = 1 / 2 * (1 / 4) + 3 / 4 * (1 - 1 / 4)) := by
  constructor
  · exact (C3_combine_with_spec sampleConfidence sampleConfidence2 2
      sampleConfidence_valid sampleConfidence2_valid).1 (by norm_num)
  · obtain ⟨c, hc, hs, -⟩ := (C3_combine_with_spec sampleConfidence sampleConfidence2
      (1 / 4) sampleConfidence_valid sampleConfidence2_valid).2 (by norm_num) (by norm_num)
    exact ⟨c, hc, hs⟩

/-- C10: for valid inputs and a weight in [0,1], `combine_with` returns a
Confidence that itself satisfies the construction invariants: score in
[0,1] and a non-empty sources list, so the result's construction never
raises. -/
theorem C10_combine_with_preserves_valid (c1 c2 : Confidence) (w : ℚ)
    (h1 : c1.Valid) (h2 : c2.Valid) (hw0 : 0 ≤ w) (hw1 : w ≤ 1) :
    ∃ c : Confidence, c1.combine_with c2 w = .ok c ∧ c.Valid := by
  refine ⟨_, combine_with_ok h1 h2 hw0 hw1, ?_, ?_, ?_⟩
  · obtain ⟨ha0, -, -⟩ := h1
    obtain ⟨hb0, -, -⟩ := h2
    have := mul_nonneg ha0 hw0
    have := mul_nonneg hb0 (by linarith : (0:ℚ) ≤ 1 - w)
    show 0 ≤ c1.score * w + c2.score * (1 - w)
    linarith
  · obtain ⟨-, ha1, -⟩ := h1
    obtain ⟨-, hb1, -⟩ := h2
    have h3 : c1.score * w ≤ 1 * w := mul_le_mul_of_nonneg_right ha1 hw0
    have h4 : c2.score * (1 - w) ≤ 1 * (1 - w) :=
      mul_le_mul_of_nonneg_right hb1 (by linarith)
    show c1.score * w + c2.score * (1 - w) ≤ 1
    linarith
  · obtain ⟨-, -, ha2⟩ := h1
    show (c1.sources ++ c2.sources).dedup ≠ []
    simp [List.dedup_eq_nil, ha2]

/-- Witness for C10: the combination of the two sample confidences at
weight 1/2 is a valid Confidence. -/
theorem C10_combine_with_preserves_valid_witness :
    ∃ c : Confidence,
      sampleConfidence.combine_with sampleConfidence2 (1 / 2) = .ok c ∧ c.Valid := by
  exact C10_combine_with_preserves_valid sampleConfidence sampleConfidence2 (1 / 2)
    sampleConfidence_valid sampleConfidence2_valid (by norm_num) (by norm_num)

/-- C1: `to_gff3` emits a single line of 9 tab-separated fields in order:
seqid (`.` when unspecified), the provenance analyzer, the feature type,
`start+1`, `end` unchanged, the 3-decimal score, the strand, a literal `.`
phase, and a `;`-joined attribute string with `ID=` first (if present),
then `Name=` (if present), then always `confidence=` and
`confidence_method=`, then every remaining attribute in map order with
the `id`/`name` keys excluded. -/
theorem C1_to_gff3_spec (f : GenomicFeature) :
    f.to_gff3 =
      String.intercalate "\t"
        [(match f.sequence_id with
          | some s => if s = "" then "." else s
          | none => "."),
         f.provenance.analyzer,
         f.feature_type,
         toString (f.start + 1),
         toString f.end_,
         format3 f.confidence.score,
         f.strand,
         ".",
         String.intercalate ";"
           ((match List.lookup "id" f.attributes with
             | some v => ["ID=" ++ v]
             | none => []) ++
            (match List.lookup "name" f.attributes with
             | some v => ["Name=" ++ v]
             | none => []) ++
            ["confidence=" ++ format3 f.confidence.score,
             "confidence_method=" ++ f.confidence.method] ++
            (f.attributes.filter (fun kv => ¬ (kv.1 = "id" ∨ kv.1 = "name"))).map
              (fun kv => kv.1 ++ "=" ++ kv.2))] := by
  unfold GenomicFeature.to_gff3
  cases h1 : List.lookup "id" f.attributes <;>
    cases h2 : List.lookup "name" f.attributes <;>
      simp [String.intercalate, String.intercalate.go, h1, h2, List.append_assoc]

/-! ### Lemmas about the aggregation helper -/

theorem listMin_mem {l : List ℝ} (h : l ≠ []) : listMin l ∈ l := by
  induction l with
  | nil => exact absurd rfl h
  | cons x xs ih =>
    cases xs with
    | nil => simp [listMin]
    | cons y ys =>
      rcases le_total x (listMin (y :: ys)) with hle | hle
      · simp [listMin, min_eq_left hle]
      · have hm := ih (by simp)
        simp only [listMin, min_eq_right hle]
        exact List.mem_cons_of_mem x hm

theorem listMin_le {l : List ℝ} {x : ℝ} (h : x ∈ l) : listMin l ≤ x := by
  induction l with
  | nil => cases h
  | cons a as ih =>
    cases as with
    | nil =>
      rcases List.mem_singleton.mp h with rfl
      simp [listMin]
    | cons y ys =>
      rcases List.mem_cons.mp h with rfl | hmem
      · simp only [listMin]
        exact min_le_left _ _
      · exact le_trans (by simp only [listMin]; exact min_le_right _ _) (ih hmem)

theorem zipWith_mul_replicate_one (l : List ℝ) :
    List.zipWith (· * ·) l (List.replicate l.length (1 : ℝ)) = l := by
  induction l with
  | nil => rfl
  | cons a as ih => simp [List.replicate_succ, ih]

/-- C2: the aggregation helper returns 0 on an empty score list for any
method; `weighted_average` defaults to the unweighted mean, rejects
mismatched weight lengths, returns 0 on zero total weight and otherwise
the weighted mean; `minimum` returns the least score; `geometric_mean`
returns the n-th root of the product; any other method name errors,
naming the method and the valid methods. -/
theorem C2_aggregate_confidence_spec (confidences : List ℝ) (method : String)
    (ws : List ℝ) :
    (∀ m : String, ∀ w : Option (List ℝ), aggregate_confidence [] m w = .ok 0) ∧
    (confidences ≠ [] →
      aggregate_confidence confidences "weighted_average" none =
        .ok (confidences.sum / (confidences.length : ℝ))) ∧
    (confidences ≠ [] → ws.length ≠ confidences.length →
      aggregate_confidence confidences "weighted_average" (some ws) =
        .error ("Weights length (" ++ toString ws.length ++
          ") must match confidences length (" ++ toString confidences.length ++ ")")) ∧
    (confidences ≠ [] → ws.length = confidences.length → ws.sum = 0 →
      aggregate_confidence confidences "weighted_average" (some ws) = .ok 0) ∧
    (confidences ≠ [] → ws.length = confidences.length → ws.sum ≠ 0 →
      aggregate_confidence confidences "weighted_average" (some ws) =
        .ok ((List.zipWith (· * ·) confidences ws).sum / ws.sum)) ∧
    (confidences ≠ [] → ∀ w : Option (List ℝ),
      ∃ r, aggregate_confidence confidences "minimum" w = .ok r ∧
        r ∈ confidences ∧ ∀ x ∈ confidences, r ≤ x) ∧
    (confidences ≠ [] → (∀ x ∈ confidences, 0 ≤ x) → ∀ w : Option (List ℝ),
      ∃ r, aggregate_confidence confidences "geometric_mean" w = .ok r ∧
        0 ≤ r ∧ r ^ confidences.length = confidences.prod) ∧
    (confidences ≠ [] → method ≠ "weighted_average" → method ≠ "minimum" →
      method ≠ "geometric_mean" → ∀ w : Option (List ℝ),
      aggregate_confidence confidences method w =
        .error ("Unknown aggregation method: " ++ method ++
          ". Valid methods: weighted_average, minimum, geometric_mean")) := by
  refine ⟨?_, ?_, ?_, ?_, ?_, ?_, ?_, ?_⟩
  · intro m w
    unfold aggregate_confidence
    rw [if_pos rfl]
  · intro hne
    unfold aggregate_confidence
    rw [if_neg hne, if_pos rfl]
    dsimp only
    rw [if_neg (by rw [List.length_replicate]; exact fun h => h rfl)]
    have hsum : (List.replicate confidences.length (1 : ℝ)).sum =
        (confidences.length : ℝ) := by
      simp [List.sum_replicate, nsmul_eq_mul]
    have hlen : (confidences.length : ℝ) ≠ 0 := by
      have : confidences.length ≠ 0 := fun h => hne (List.length_eq_zero.mp h)
      exact_mod_cast this
    rw [hsum, if_neg hlen, zipWith_mul_replicate_one]
  · intro hne hlen
    unfold aggregate_confidence
    rw [if_neg hne, if_pos rfl]
    dsimp only
    rw [if_pos hlen]
  · intro hne hlen hzero
    unfold aggregate_confidence
    rw [if_neg hne, if_pos rfl]
    dsimp only
    rw [if_neg (by rw [hlen]; exact fun h => h rfl), if_pos hzero]
  · intro hne hlen hnz
    unfold aggregate_confidence
    rw [if_neg hne, if_pos rfl]
    dsimp only
    rw [if_neg (by rw [hlen]; exact fun h => h rfl), if_neg hnz]
  · intro hne w
    unfold aggregate_confidence
    rw [if_neg hne, if_neg (by decide), if_pos rfl]
    exact ⟨listMin confidences, rfl, listMin_mem hne,
      fun x hx => listMin_le hx⟩
  · intro hne hpos w
    unfold aggregate_confidence
    rw [if_neg hne, if_neg (by decide), if_neg (by decide), if_pos rfl]
    have hprod : confidences.foldl (· * ·) 1 = confidences.prod :=
      List.prod_eq_foldl.symm
    have hp0 : (0 : ℝ) ≤ confidences.prod := List.prod_nonneg hpos
    have hn0 : (confidences.length : ℝ) ≠ 0 := by
      have : confidences.length ≠ 0 := fun h => hne (List.length_eq_zero.mp h)
      exact_mod_cast this
    refine ⟨_, rfl, ?_, ?_⟩
    · rw [hprod]
      exact Real.rpow_nonneg hp0 _
    · rw [hprod, ← Real.rpow_natCast (confidences.prod ^ ((1 : ℝ) / (confidences.length : ℝ)))
        confidences.length, ← Real.rpow_mul hp0]
      rw [one_div, inv_mul_cancel₀ hn0, Real.rpow_one]
  · intro hne h1 h2 h3 w
    unfold aggregate_confidence
    rw [if_neg hne, if_neg h1, if_neg h2, if_neg h3]

/-- Witness for C2: concrete aggregations — empty list gives 0 for an
unknown method too; mean of two ones is 1; mismatched weights error;
minimum and geometric mean of concrete lists; unknown method error. -/
theorem C2_aggregate_confidence_spec_witness :
    aggregate_confidence [] "bogus" none = .ok 0 ∧
    aggregate_confidence [1, 1] "weighted_average" none = .ok 1 ∧
    aggregate_confidence [1] "weighted_average" (some [1, 1]) =
      .error "Weights length (2) must match confidences length (1)" ∧
    (∃ r, aggregate_confidence [1, 2] "minimum" none = .ok r ∧
      r ∈ [(1 : ℝ), 2] ∧ ∀ x ∈ [(1 : ℝ), 2], r ≤ x) ∧
    (∃ r, aggregate_confidence [1, 1] "geometric_mean" none = .ok r ∧
      0 ≤ r ∧ r ^ 2 = 1) ∧
    aggregate_confidence [1] "bogus" none =
      .error "Unknown aggregation method: bogus. Valid methods: weighted_average, minimum, geometric_mean" := by
  refine ⟨?_, ?_, ?_, ?_, ?_, ?_⟩
  · exact (C2_aggregate_confidence_spec [] "x" []).1 "bogus" none
  · rw [(C2_aggregate_confidence_spec [1, 1] "x" []).2.1 (by simp)]
    norm_num
  · rw [(C2_aggregate_confidence_spec [1] "x" [1, 1]).2.2.1 (by simp) (by simp)]
    rfl
  · exact (C2_aggregate_confidence_spec [1, 2] "x" []).2.2.2.2.2.1 (by simp) none
  · obtain ⟨r, hr, h0, hpow⟩ := (C2_aggregate_confidence_spec [1, 1] "x" []).2.2.2.2.2.2.1
      (by simp) (by norm_num) none
    refine ⟨r, hr, h0, ?_⟩
    simpa using hpow
  · rw [(C2_aggregate_confidence_spec [1] "bogus" []).2.2.2.2.2.2.2 (by simp)
      (by decide) (by decide) (by decide) none]
    rfl

/-- C8: `Provenance` construction succeeds exactly when the timestamp,
after the `Z` → `+00:00` replacement, is accepted by the embedded
`fromisoformat` date-time grammar; in particular a canonical ISO-8601
timestamp with a trailing literal `Z` is accepted, the `Z` being read as
the UTC offset `+00:00`, while non-parseable strings are rejected at
construction time. -/
theorem C8_provenance_timestamp_spec :
    (∀ (analyzer version : String) (params : Dict) (t : String)
        (deps refs : List String),
      exceptOk (mkProvenance analyzer version params t deps refs) =
        fromisoformatOK (pyReplaceZ t)) ∧
    pyReplaceZ "2025-10-31T12:00:00Z" = "2025-10-31T12:00:00+00:00" ∧
    fromisoformatOK (pyReplaceZ "2025-10-31T12:00:00Z") = true ∧
    fromisoformatOK (pyReplaceZ "2025-10-31T12:00:00") = true ∧
    fromisoformatOK (pyReplaceZ "not-a-timestamp") = false ∧
    fromisoformatOK (pyReplaceZ "2025-13-01T00:00:00Z") = false := by
  refine ⟨?_, by decide, by decide, by decide, by decide, by decide⟩
  intro analyzer version params t deps refs
  unfold mkProvenance
  split_ifs with h
  · rw [h]; rfl
  · rw [Bool.not_eq_true] at h
    rw [h]; rfl

end GenomeSim
